import Mathlib

/-!
Verification development for the Gmail-Cleaner-Pro category-cleanup core.

The Go sources are shallowly embedded as pure Lean functions over an
abstract remote provider (an `Oracle` of pure functions).  Every remote
round-trip a function performs is additionally recorded in a `List Call`
trace, so that statements about which remote calls are issued (page sizes,
one call per thread, no call on an empty batch, immediate abort on error)
can be expressed and proved.
-/

namespace GmailCleaner

/-- A thread is identified by its remote-assigned id (Go: gmail.Thread,
only the Id field is used by the core). -/
structure Thread where
  id : String
  deriving Repr, DecidableEq

/-- One page of a Users.Threads.List response: the threads, the
NextPageToken (empty string means absent) and the ResultSizeEstimate. -/
structure Page where
  threads : List Thread
  nextPageToken : String
  resultSizeEstimate : Int
  deriving Repr, DecidableEq

/-- A remote call issued by the embedded code.  Estimate operations are
Users.Threads.List calls with MaxResults(1), exactly as in the source. -/
inductive Call where
  | listPage (userID lbl : String) (pageSize : Int) (pageToken : String)
  | modifyThread (userID tid : String) (addLabelIds removeLabelIds : List String)
  | deleteThread (userID tid : String)
  deriving Repr, DecidableEq

/-- The remote Gmail provider, abstracted as pure (hence stateless)
fallible functions.  An error is its text (Go error strings are what the
core inspects). -/
structure Oracle where
  listPage : String → String → Int → String → Except String Page
  modifyThread : String → String → List String → List String → Except String Unit
  deleteThread : String → String → Except String Unit

/-- Error wrapping used by ListCategoryThreads on a failed page
(Go: fmt.Errorf("failed to list category threads for %s (page %d): %w", ...)). -/
def wrapCatMsg (lbl : String) (pageCount : Nat) (e : String) : String :=
  "failed to list category threads for " ++ lbl ++ " (page " ++ toString pageCount ++ "): " ++ e

/-- Error wrapping used by ListTrashThreads on a failed page
(Go: fmt.Errorf("failed to list trash threads (page %d): %w", ...)). -/
def wrapTrashMsg (pageCount : Nat) (e : String) : String :=
  "failed to list trash threads (page " ++ toString pageCount ++ "): " ++ e

/-- The pagination loop shared verbatim (up to the label queried and the
error-wrap text) by Service.ListCategoryThreads and
Service.ListTrashThreads.  State: accumulated threads, totalFetched,
current page token ("" = absent) and the number of pages already fetched.
The Go loop is `for { ... }`; each continuing iteration strictly
increases totalFetched while keeping it below maxResults, so
maxResults.toNat + 1 units of fuel always suffice (the fuel-exhausted
branch is unreachable from the entry points below). -/
def listLoop (o : Oracle) (u lbl : String) (wrapMsg : Nat → String → String) (maxResults : Int) :
    Nat → List Thread → Int → String → Nat → (Except String (List Thread)) × List Call
  | 0, acc, _, _, _ => (.ok acc, [])
  | Nat.succ fuel, acc, totalFetched, pageToken, pc =>
    let pageCount := pc + 1
    let remainingNeeded := maxResults - totalFetched
    let pageSize := if remainingNeeded < 500 then remainingNeeded else 500
    match o.listPage u lbl pageSize pageToken with
    | .error e => (.error (wrapMsg pageCount e), [Call.listPage u lbl pageSize pageToken])
    | .ok p =>
      let acc2 := acc ++ p.threads
      let totalFetched2 := totalFetched + (p.threads.length : Int)
      if p.nextPageToken = "" ∨ totalFetched2 ≥ maxResults ∨ p.threads.length = 0 then
        (.ok acc2, [Call.listPage u lbl pageSize pageToken])
      else
        let rec2 := listLoop o u lbl wrapMsg maxResults fuel acc2 totalFetched2 p.nextPageToken pageCount
        (rec2.1, Call.listPage u lbl pageSize pageToken :: rec2.2)

/-- Service.ListCategoryThreads: paginated listing of threads carrying a
category label, up to maxResults. -/
def ListCategoryThreads (o : Oracle) (u categoryLabel : String) (maxResults : Int) :
    (Except String (List Thread)) × List Call :=
  listLoop o u categoryLabel (wrapCatMsg categoryLabel) maxResults (maxResults.toNat + 1) [] 0 "" 0

/-- Service.ListTrashThreads: same loop querying the TRASH label. -/
def ListTrashThreads (o : Oracle) (u : String) (maxResults : Int) :
    (Except String (List Thread)) × List Call :=
  listLoop o u "TRASH" wrapTrashMsg maxResults (maxResults.toNat + 1) [] 0 "" 0

/-- Service.EstimateCategoryThreads: one List call with MaxResults(1),
returning the reported ResultSizeEstimate.  Errors are returned unwrapped. -/
def EstimateCategoryThreads (o : Oracle) (u categoryLabel : String) :
    (Except String Int) × List Call :=
  match o.listPage u categoryLabel 1 "" with
  | .error e => (.error e, [Call.listPage u categoryLabel 1 ""])
  | .ok p => (.ok p.resultSizeEstimate, [Call.listPage u categoryLabel 1 ""])

/-- Service.EstimateTrashThreads: the same single round-trip on TRASH. -/
def EstimateTrashThreads (o : Oracle) (u : String) : (Except String Int) × List Call :=
  match o.listPage u "TRASH" 1 "" with
  | .error e => (.error e, [Call.listPage u "TRASH" 1 ""])
  | .ok p => (.ok p.resultSizeEstimate, [Call.listPage u "TRASH" 1 ""])

/-- The per-thread loop of Service.BatchTrashThreads: one
Users.Threads.Modify call per thread adding TRASH and removing INBOX,
aborting on the first failure with a wrapped error. -/
def trashLoop (o : Oracle) (u : String) : List String → (Except String Unit) × List Call
  | [] => (.ok (), [])
  | tid :: rest =>
    match o.modifyThread u tid ["TRASH"] ["INBOX"] with
    | .error e =>
      (.error ("failed to trash thread " ++ tid ++ ": " ++ e),
       [Call.modifyThread u tid ["TRASH"] ["INBOX"]])
    | .ok _ =>
      let r := trashLoop o u rest
      (r.1, Call.modifyThread u tid ["TRASH"] ["INBOX"] :: r.2)

/-- Service.BatchTrashThreads: returns nil immediately on an empty id
list, otherwise moves each thread to trash. -/
def BatchTrashThreads (o : Oracle) (u : String) (threadIDs : List String) :
    (Except String Unit) × List Call :=
  if threadIDs.isEmpty then (.ok (), [])
  else trashLoop o u threadIDs

/-- The per-thread loop of Service.BatchDeleteThreadsPermanently: one
Users.Threads.Delete call per thread, aborting on the first failure with
a wrapped error. -/
def deleteLoop (o : Oracle) (u : String) : List String → (Except String Unit) × List Call
  | [] => (.ok (), [])
  | tid :: rest =>
    match o.deleteThread u tid with
    | .error e =>
      (.error ("failed to permanently delete thread " ++ tid ++ ": " ++ e),
       [Call.deleteThread u tid])
    | .ok _ =>
      let r := deleteLoop o u rest
      (r.1, Call.deleteThread u tid :: r.2)

/-- Service.BatchDeleteThreadsPermanently: returns nil immediately on an
empty id list, otherwise permanently deletes each thread. -/
def BatchDeleteThreadsPermanently (o : Oracle) (u : String) (threadIDs : List String) :
    (Except String Unit) × List Call :=
  if threadIDs.isEmpty then (.ok (), [])
  else deleteLoop o u threadIDs

/-- service.IsAuthError: substring match on the error text
(Go: strings.Contains on four fixed substrings; nil errors are not auth
errors). -/
def strContainsChars (pat : List Char) : List Char → Bool
  | [] => pat.isEmpty
  | c :: rest => (pat.isPrefixOf (c :: rest)) || strContainsChars pat rest

/-- Go strings.Contains(s, substr). -/
def strContains (s pat : String) : Bool :=
  strContainsChars pat.data s.data

/-- service.IsAuthError. -/
def IsAuthError (err : Option String) : Bool :=
  match err with
  | none => false
  | some errorStr =>
    strContains errorStr "ACCESS_TOKEN_SCOPE_INSUFFICIENT" ||
    strContains errorStr "insufficientPermissions" ||
    strContains errorStr "Error 401" ||
    strContains errorStr "Error 403"

/-- service.CleanSummary.  PerCategoryDeleted models the Go
map[string]int as an association list with distinct keys (assignment
replaces an existing key, otherwise appends). -/
structure CleanSummary where
  PerCategoryDeleted : List (String × Nat)
  TotalDeleted : Nat
  Completed : Bool
  Reason : String
  deriving Repr, DecidableEq

/-- Go map assignment m[k] = v on the association-list model. -/
def mapInsert (m : List (String × Nat)) (k : String) (v : Nat) : List (String × Nat) :=
  match m with
  | [] => [(k, v)]
  | kv :: rest => if kv.1 = k then (k, v) :: rest else kv :: mapInsert rest k v

/-- Sum of the values of the per-category map. -/
def sumValues (m : List (String × Nat)) : Nat :=
  (m.map Prod.snd).sum

/-- The listing step of one CleanCategories iteration: TRASH uses the
trash listing path, every other label the category listing path. -/
def cleanListing (o : Oracle) (u lbl : String) (maxPerCat : Int) :
    (Except String (List Thread)) × List Call :=
  if lbl = "TRASH" then ListTrashThreads o u maxPerCat
  else ListCategoryThreads o u lbl maxPerCat

/-- The delete/trash step of one CleanCategories iteration: TRASH routes
to permanent deletion, every other label to move-to-trash. -/
def cleanBatch (o : Oracle) (u lbl : String) (ids : List String) :
    (Except String Unit) × List Call :=
  if lbl = "TRASH" then BatchDeleteThreadsPermanently o u ids
  else BatchTrashThreads o u ids

/-- The post-delete estimate step of one CleanCategories iteration. -/
def cleanEstimate (o : Oracle) (u lbl : String) : (Except String Int) × List Call :=
  if lbl = "TRASH" then EstimateTrashThreads o u
  else EstimateCategoryThreads o u lbl

/-- The category loop of CleanerService.CleanCategories, carrying the Go
locals result, total, completed and reason.  Listing and delete/trash
failures return the error immediately; an estimate failure is ignored
(Go: `if err == nil && estimate > 0`). -/
def cleanLoop (o : Oracle) (u : String) (maxPerCat : Int) :
    List String → List (String × Nat) → Nat → Bool → String →
    (Except String CleanSummary) × List Call
  | [], result, total, completed, reason =>
    (.ok ⟨result, total, completed, reason⟩, [])
  | lbl :: rest, result, total, completed, reason =>
    match cleanListing o u lbl maxPerCat with
    | (.error e, tr1) => (.error e, tr1)
    | (.ok threads, tr1) =>
      let ids := threads.map Thread.id
      match cleanBatch o u lbl ids with
      | (.error e, tr2) => (.error e, tr1 ++ tr2)
      | (.ok _, tr2) =>
        let deleted := ids.length
        let result2 := mapInsert result lbl deleted
        let total2 := total + deleted
        if (deleted : Int) ≥ maxPerCat then
          let r := cleanLoop o u maxPerCat rest result2 total2 false
            "max per category reached; more emails may remain"
          (r.1, tr1 ++ tr2 ++ r.2)
        else
          match cleanEstimate o u lbl with
          | (.ok estimate, tr3) =>
            if estimate > 0 then
              let r := cleanLoop o u maxPerCat rest result2 total2 false
                "remaining emails detected in one or more categories"
              (r.1, tr1 ++ tr2 ++ tr3 ++ r.2)
            else
              let r := cleanLoop o u maxPerCat rest result2 total2 completed reason
              (r.1, tr1 ++ tr2 ++ tr3 ++ r.2)
          | (.error _, tr3) =>
            let r := cleanLoop o u maxPerCat rest result2 total2 completed reason
            (r.1, tr1 ++ tr2 ++ tr3 ++ r.2)

/-- CleanerService.CleanCategories: process each label in order starting
from an empty result map, zero total, completed = true and the default
reason. -/
def CleanCategories (o : Oracle) (u : String) (categories : List String) (maxPerCat : Int) :
    (Except String CleanSummary) × List Call :=
  cleanLoop o u maxPerCat categories [] 0 true "all categories processed"

/-- handler.CleanRequest (after JSON binding). -/
structure CleanRequest where
  MaxPerCategory : Int
  Categories : List String
  deriving Repr, DecidableEq

/-- The gin binding validation on CleanRequest: MaxPerCategory in
[0, 1000000], Categories non-empty, every element from the closed set. -/
def validCategory (c : String) : Bool :=
  c = "CATEGORY_SOCIAL" || c = "CATEGORY_FORUMS" || c = "CATEGORY_PROMOTIONS" ||
  c = "CATEGORY_UPDATES" || c = "TRASH"

/-- handler binding tags gte=0, lte=1000000, required, min=1, dive, oneof. -/
def validRequest (r : CleanRequest) : Bool :=
  decide (0 ≤ r.MaxPerCategory) && decide (r.MaxPerCategory ≤ 1000000) &&
  !r.Categories.isEmpty && r.Categories.all validCategory

/-- The zero-cap substitution in CleanHandler.Clean
(Go: if req.MaxPerCategory == 0 { req.MaxPerCategory = 1000000 }). -/
def effectiveRequest (req : CleanRequest) : CleanRequest :=
  if req.MaxPerCategory = 0 then { req with MaxPerCategory := 1000000 } else req

/-- The externally visible outcome of CleanHandler.Clean: HTTP 400 on
binding failure, 401 with a re-authentication prompt on an auth-classified
error, 500 on any other error, 200 with the summary on success. -/
inductive HandlerOutcome where
  | badRequest
  | unauthorized (details : String)
  | internalError (e : String)
  | ok (deleted : List (String × Nat)) (totalDeleted : Nat) (completed : Bool)
      (completionReason : String)
  deriving Repr, DecidableEq

/-- handler.CleanHandler.Clean. -/
def CleanHandlerClean (o : Oracle) (req : CleanRequest) : HandlerOutcome :=
  if !validRequest req then .badRequest
  else
    let req2 := effectiveRequest req
    match (CleanCategories o "me" req2.Categories req2.MaxPerCategory).1 with
    | .error e => if IsAuthError (some e) then .unauthorized e else .internalError e
    | .ok s => .ok s.PerCategoryDeleted s.TotalDeleted s.Completed s.Reason

/-- Spec-side view of one category stage: the number of items the stage
deletes, determined (oracle being pure) by the listing result alone. -/
def stageDeleted (o : Oracle) (u : String) (maxPerCat : Int) (lbl : String) : Nat :=
  match (cleanListing o u lbl maxPerCat).1 with
  | .ok threads => threads.length
  | .error _ => 0

/-- Spec-side view of the completion condition a category stage triggers:
the cap message when the deleted count reaches maxPerCat, the
remaining-emails message when the estimate succeeds with a positive
value, and none otherwise (including a failed estimate). -/
def stageTrigger (o : Oracle) (u : String) (maxPerCat : Int) (lbl : String) : Option String :=
  match (cleanListing o u lbl maxPerCat).1 with
  | .error _ => none
  | .ok threads =>
    if (threads.length : Int) ≥ maxPerCat then
      some "max per category reached; more emails may remain"
    else
      match (cleanEstimate o u lbl).1 with
      | .ok estimate =>
        if estimate > 0 then some "remaining emails detected in one or more categories"
        else none
      | .error _ => none

/-- Spec-side predicate for claim C6 (stated in the words of the spec):
a trace of page requests in which every request asks for exactly
min(maxResults - totalFetched, 500) items, where totalFetched is
reconstructed from the (pure) oracle responses to the earlier requests. -/
def pageSizesOk (o : Oracle) (maxResults : Int) : Int → List Call → Prop
  | _, [] => True
  | tf, Call.listPage u2 l2 sz tok :: rest =>
    sz = min (maxResults - tf) 500 ∧
    (match o.listPage u2 l2 sz tok with
     | .ok p => pageSizesOk o maxResults (tf + (p.threads.length : Int)) rest
     | .error _ => rest = [])
  | _, _ :: _ => False

/-- Spec-side predicate for claim C7: a nonempty trace of successful page
requests in which every page but the last fails the stop condition
(token absent, totalFetched at or past the maximum, or an empty page) and
the last page satisfies it. -/
def pagesTerm (o : Oracle) (maxResults : Int) : Int → List Call → Prop
  | _, [] => False
  | tf, Call.listPage u2 l2 sz tok :: rest =>
    (match o.listPage u2 l2 sz tok with
     | .error _ => False
     | .ok p =>
       match rest with
       | [] => p.nextPageToken = "" ∨ tf + (p.threads.length : Int) ≥ maxResults ∨
           p.threads.length = 0
       | _ :: _ =>
         ¬ (p.nextPageToken = "" ∨ tf + (p.threads.length : Int) ≥ maxResults ∨
             p.threads.length = 0) ∧
         pagesTerm o maxResults (tf + (p.threads.length : Int)) rest)
  | _, _ :: _ => False

/-- Hypothesis of the page-count bound of claim C7: every page request in
the trace was answered successfully with exactly as many threads as it
asked for. -/
def fullPages (o : Oracle) (tr : List Call) : Prop :=
  ∀ c ∈ tr, ∀ u2 l2 sz tok, c = Call.listPage u2 l2 sz tok →
    ∃ p, o.listPage u2 l2 sz tok = .ok p ∧ (p.threads.length : Int) = sz

/-- The pattern pat occurs as a contiguous substring of s. -/
def occursIn (pat s : String) : Prop :=
  ∃ l r : List Char, s.data = l ++ pat.data ++ r

/-- Oracle for the C1 counterexample: every listing page holds one
thread, every estimate reports zero, every mutation succeeds. -/
def oX1 : Oracle :=
  ⟨fun _ _ sz _ => if sz = 1 then .ok ⟨[], "", 0⟩ else .ok ⟨[⟨"a"⟩], "", 0⟩,
   fun _ _ _ _ => .ok (), fun _ _ => .ok ()⟩

/-- Summary produced by oX1 on the duplicated-category request. -/
def sX1 : CleanSummary := ⟨[("CATEGORY_SOCIAL", 1)], 2, true, "all categories processed"⟩

/-- Trace produced by oX1 on the duplicated-category request. -/
def trX1 : List Call :=
  [Call.listPage "me" "CATEGORY_SOCIAL" 10 "",
   Call.modifyThread "me" "a" ["TRASH"] ["INBOX"],
   Call.listPage "me" "CATEGORY_SOCIAL" 1 "",
   Call.listPage "me" "CATEGORY_SOCIAL" 10 "",
   Call.modifyThread "me" "a" ["TRASH"] ["INBOX"],
   Call.listPage "me" "CATEGORY_SOCIAL" 1 ""]

/-- Oracle for the C1 witness: every page is empty and every estimate is
zero, so every request succeeds. -/
def oW1 : Oracle :=
  ⟨fun _ _ _ _ => .ok ⟨[], "", 0⟩, fun _ _ _ _ => .ok (), fun _ _ => .ok ()⟩

/-- Summary produced by oW1 on a duplicate-free two-category request. -/
def sW1 : CleanSummary :=
  ⟨[("CATEGORY_SOCIAL", 0), ("TRASH", 0)], 0, true, "all categories processed"⟩

/-- Trace produced by oW1 on that request. -/
def trW1 : List Call :=
  [Call.listPage "me" "CATEGORY_SOCIAL" 5 "", Call.listPage "me" "CATEGORY_SOCIAL" 1 "",
   Call.listPage "me" "TRASH" 5 "", Call.listPage "me" "TRASH" 1 ""]

/-- Oracle for the C2 counterexample: listings succeed but every
estimate call (the only call with page size 1) fails. -/
def oX2 : Oracle :=
  ⟨fun _ _ sz _ => if sz = 1 then .error "boom" else .ok ⟨[⟨"a"⟩], "", 0⟩,
   fun _ _ _ _ => .ok (), fun _ _ => .ok ()⟩

/-- Summary produced by oX2 on a one-category request with cap 5. -/
def sX2 : CleanSummary := ⟨[("CATEGORY_SOCIAL", 1)], 1, true, "all categories processed"⟩

/-- Trace produced by oX2 on that request. -/
def trX2 : List Call :=
  [Call.listPage "me" "CATEGORY_SOCIAL" 5 "",
   Call.modifyThread "me" "a" ["TRASH"] ["INBOX"],
   Call.listPage "me" "CATEGORY_SOCIAL" 1 ""]

/-- Oracle for the C2 witness: empty pages, zero estimates. -/
def oW2 : Oracle :=
  ⟨fun _ _ _ _ => .ok ⟨[], "", 0⟩, fun _ _ _ _ => .ok (), fun _ _ => .ok ()⟩

/-- Summary produced by oW2 on the one-category TRASH request. -/
def sW2 : CleanSummary := ⟨[("TRASH", 0)], 0, true, "all categories processed"⟩

/-- Trace produced by oW2 on that request. -/
def trW2 : List Call :=
  [Call.listPage "me" "TRASH" 5 "", Call.listPage "me" "TRASH" 1 ""]

/-- Oracle for the C3 counterexample: estimate calls fail with a quota
error, everything else succeeds. -/
def oX3 : Oracle :=
  ⟨fun _ _ sz _ => if sz = 1 then .error "quota exceeded" else .ok ⟨[⟨"a"⟩], "", 0⟩,
   fun _ _ _ _ => .ok (), fun _ _ => .ok ()⟩

/-- Summary produced by oX3 on a one-category request with cap 5. -/
def sX3 : CleanSummary := ⟨[("CATEGORY_SOCIAL", 1)], 1, true, "all categories processed"⟩

/-- Trace produced by oX3 on that request. -/
def trX3 : List Call :=
  [Call.listPage "me" "CATEGORY_SOCIAL" 5 "",
   Call.modifyThread "me" "a" ["TRASH"] ["INBOX"],
   Call.listPage "me" "CATEGORY_SOCIAL" 1 ""]

/-- Oracle for the C3 witness: every page request fails. -/
def oW3 : Oracle :=
  ⟨fun _ _ _ _ => .error "boom", fun _ _ _ _ => .ok (), fun _ _ => .ok ()⟩

/-- Oracle for the C4 and C10 witnesses: everything succeeds, pages are
empty. -/
def oW4 : Oracle :=
  ⟨fun _ _ _ _ => .ok ⟨[], "", 0⟩, fun _ _ _ _ => .ok (), fun _ _ => .ok ()⟩

/-- Oracle for the C5 counterexample: the SOCIAL category lists one
thread below the cap of two but its estimate stays positive, while the
PROMOTIONS category lists exactly the cap. -/
def oX5 : Oracle :=
  ⟨fun _ l sz _ =>
    if l = "CATEGORY_SOCIAL" then
      (if sz = 1 then .ok ⟨[⟨"x"⟩], "", 5⟩ else .ok ⟨[⟨"s1"⟩], "", 5⟩)
    else .ok ⟨[⟨"p1"⟩, ⟨"p2"⟩], "", 0⟩,
   fun _ _ _ _ => .ok (), fun _ _ => .ok ()⟩

/-- Summary produced by oX5 on the two-category request with cap 2. -/
def sX5 : CleanSummary :=
  ⟨[("CATEGORY_SOCIAL", 1), ("CATEGORY_PROMOTIONS", 2)], 3, false,
   "max per category reached; more emails may remain"⟩

/-- Trace produced by oX5 on that request. -/
def trX5 : List Call :=
  [Call.listPage "me" "CATEGORY_SOCIAL" 2 "",
   Call.modifyThread "me" "s1" ["TRASH"] ["INBOX"],
   Call.listPage "me" "CATEGORY_SOCIAL" 1 "",
   Call.listPage "me" "CATEGORY_PROMOTIONS" 2 "",
   Call.modifyThread "me" "p1" ["TRASH"] ["INBOX"],
   Call.modifyThread "me" "p2" ["TRASH"] ["INBOX"]]

/-- Oracle for the C6 and C7 witnesses: each page returns exactly as
many threads as requested and reports a continuation token. -/
def oW6 : Oracle :=
  ⟨fun _ _ sz _ => .ok ⟨List.replicate sz.toNat ⟨"t"⟩, "", 0⟩,
   fun _ _ _ _ => .ok (), fun _ _ => .ok ()⟩

/-- Oracle for the C9 witness: every page request fails with an
authentication error. -/
def oW9 : Oracle :=
  ⟨fun _ _ _ _ => .error "googleapi: Error 401: Invalid Credentials",
   fun _ _ _ _ => .ok (), fun _ _ => .ok ()⟩

/-- Request used by the C9 witness. -/
def reqW9 : CleanRequest := ⟨5, ["CATEGORY_SOCIAL"]⟩

/-- Wrapped error text that CleanCategories propagates for oW9. -/
def eW9 : String :=
  "failed to list category threads for CATEGORY_SOCIAL (page 1): googleapi: Error 401: Invalid Credentials"

lemma getLastD_cons {α : Type} (a r : α) :
    ∀ xs : List α, ((a :: xs).getLast?).getD r = (xs.getLast?).getD a
  | [] => rfl
  | b :: bs => by
    rw [List.getLast?_cons_cons]
    rcases h : (b :: bs).getLast? with _ | v
    · exact absurd h (by simp)
    · rfl

lemma cleanLoop_listing_error (o : Oracle) (u : String) (maxPerCat : Int) (lbl : String)
    (rest : List String) (res : List (String × Nat)) (tot : Nat) (comp : Bool) (reason : String)
    (e : String) (tr1 : List Call) (hL : cleanListing o u lbl maxPerCat = (.error e, tr1)) :
    cleanLoop o u maxPerCat (lbl :: rest) res tot comp reason = (.error e, tr1) := by
  simp only [cleanLoop, hL]

lemma cleanLoop_batch_error (o : Oracle) (u : String) (maxPerCat : Int) (lbl : String)
    (rest : List String) (res : List (String × Nat)) (tot : Nat) (comp : Bool) (reason : String)
    (threads : List Thread) (tr1 : List Call) (e : String) (tr2 : List Call)
    (hL : cleanListing o u lbl maxPerCat = (.ok threads, tr1))
    (hB : cleanBatch o u lbl (threads.map Thread.id) = (.error e, tr2)) :
    cleanLoop o u maxPerCat (lbl :: rest) res tot comp reason = (.error e, tr1 ++ tr2) := by
  simp only [cleanLoop, hL, hB]

lemma cleanLoop_cap (o : Oracle) (u : String) (maxPerCat : Int) (lbl : String)
    (rest : List String) (res : List (String × Nat)) (tot : Nat) (comp : Bool) (reason : String)
    (threads : List Thread) (tr1 tr2 : List Call)
    (hL : cleanListing o u lbl maxPerCat = (.ok threads, tr1))
    (hB : cleanBatch o u lbl (threads.map Thread.id) = (.ok (), tr2))
    (hge : (threads.length : Int) ≥ maxPerCat) :
    cleanLoop o u maxPerCat (lbl :: rest) res tot comp reason =
      ((cleanLoop o u maxPerCat rest (mapInsert res lbl threads.length)
          (tot + threads.length) false "max per category reached; more emails may remain").1,
       tr1 ++ tr2 ++ (cleanLoop o u maxPerCat rest (mapInsert res lbl threads.length)
          (tot + threads.length) false "max per category reached; more emails may remain").2) := by
  simp only [cleanLoop, hL, hB, List.length_map]
  rw [if_pos hge]

lemma cleanLoop_est_pos (o : Oracle) (u : String) (maxPerCat : Int) (lbl : String)
    (rest : List String) (res : List (String × Nat)) (tot : Nat) (comp : Bool) (reason : String)
    (threads : List Thread) (tr1 tr2 : List Call) (estimate : Int) (tr3 : List Call)
    (hL : cleanListing o u lbl maxPerCat = (.ok threads, tr1))
    (hB : cleanBatch o u lbl (threads.map Thread.id) = (.ok (), tr2))
    (hlt : ¬ (threads.length : Int) ≥ maxPerCat)
    (hE : cleanEstimate o u lbl = (.ok estimate, tr3)) (hpos : estimate > 0) :
    cleanLoop o u maxPerCat (lbl :: rest) res tot comp reason =
      ((cleanLoop o u maxPerCat rest (mapInsert res lbl threads.length)
          (tot + threads.length) false "remaining emails detected in one or more categories").1,
       tr1 ++ tr2 ++ tr3 ++ (cleanLoop o u maxPerCat rest (mapInsert res lbl threads.length)
          (tot + threads.length) false "remaining emails detected in one or more categories").2) := by
  simp only [cleanLoop, hL, hB, List.length_map]
  rw [if_neg hlt]
  simp only [hE]
  rw [if_pos hpos]

lemma cleanLoop_est_nonpos (o : Oracle) (u : String) (maxPerCat : Int) (lbl : String)
    (rest : List String) (res : List (String × Nat)) (tot : Nat) (comp : Bool) (reason : String)
    (threads : List Thread) (tr1 tr2 : List Call) (estimate : Int) (tr3 : List Call)
    (hL : cleanListing o u lbl maxPerCat = (.ok threads, tr1))
    (hB : cleanBatch o u lbl (threads.map Thread.id) = (.ok (), tr2))
    (hlt : ¬ (threads.length : Int) ≥ maxPerCat)
    (hE : cleanEstimate o u lbl = (.ok estimate, tr3)) (hpos : ¬ estimate > 0) :
    cleanLoop o u maxPerCat (lbl :: rest) res tot comp reason =
      ((cleanLoop o u maxPerCat rest (mapInsert res lbl threads.length)
          (tot + threads.length) comp reason).1,
       tr1 ++ tr2 ++ tr3 ++ (cleanLoop o u maxPerCat rest (mapInsert res lbl threads.length)
          (tot + threads.length) comp reason).2) := by
  simp only [cleanLoop, hL, hB, List.length_map]
  rw [if_neg hlt]
  simp only [hE]
  rw [if_neg hpos]

lemma cleanLoop_est_error (o : Oracle) (u : String) (maxPerCat : Int) (lbl : String)
    (rest : List String) (res : List (String × Nat)) (tot : Nat) (comp : Bool) (reason : String)
    (threads : List Thread) (tr1 tr2 : List Call) (e : String) (tr3 : List Call)
    (hL : cleanListing o u lbl maxPerCat = (.ok threads, tr1))
    (hB : cleanBatch o u lbl (threads.map Thread.id) = (.ok (), tr2))
    (hlt : ¬ (threads.length : Int) ≥ maxPerCat)
    (hE : cleanEstimate o u lbl = (.error e, tr3)) :
    cleanLoop o u maxPerCat (lbl :: rest) res tot comp reason =
      ((cleanLoop o u maxPerCat rest (mapInsert res lbl threads.length)
          (tot + threads.length) comp reason).1,
       tr1 ++ tr2 ++ tr3 ++ (cleanLoop o u maxPerCat rest (mapInsert res lbl threads.length)
          (tot + threads.length) comp reason).2) := by
  simp only [cleanLoop, hL, hB, List.length_map]
  rw [if_neg hlt]
  simp only [hE]

/-- Characterization of a successful cleanLoop run: the final map is the
fold of Go map assignments, the total sums the per-stage deleted counts
over the processing sequence, completion holds exactly when no stage
triggered a condition, the reason is the message of the last triggered
condition (or the incoming reason), and the listing of every processed label
succeeded. -/
lemma cleanLoop_ok_spec (o : Oracle) (u : String) (maxPerCat : Int) :
    ∀ (cats : List String) (res : List (String × Nat)) (tot : Nat) (comp : Bool) (reason : String)
      (s : CleanSummary) (tr : List Call),
      cleanLoop o u maxPerCat cats res tot comp reason = (.ok s, tr) →
      s.PerCategoryDeleted =
        cats.foldl (fun m l => mapInsert m l (stageDeleted o u maxPerCat l)) res ∧
      s.TotalDeleted = tot + (cats.map (stageDeleted o u maxPerCat)).sum ∧
      s.Completed = (comp && (cats.filterMap (stageTrigger o u maxPerCat)).isEmpty) ∧
      s.Reason = ((cats.filterMap (stageTrigger o u maxPerCat)).getLast?).getD reason ∧
      ∀ l ∈ cats, ∃ threads, (cleanListing o u l maxPerCat).1 = .ok threads
  | [], res, tot, comp, reason, s, tr, h => by
    simp only [cleanLoop, Prod.mk.injEq, Except.ok.injEq] at h
    obtain ⟨hs, -⟩ := h
    subst hs
    refine ⟨rfl, by simp, by simp, rfl, by simp⟩
  | lbl :: rest, res, tot, comp, reason, s, tr, h => by
    rcases hL : cleanListing o u lbl maxPerCat with ⟨rL, tr1⟩
    rcases rL with e | threads
    · rw [cleanLoop_listing_error o u maxPerCat lbl rest res tot comp reason e tr1 hL] at h
      exact absurd h (by simp)
    · have hL1 : (cleanListing o u lbl maxPerCat).1 = .ok threads := by rw [hL]
      have hsd : stageDeleted o u maxPerCat lbl = threads.length := by
        simp [stageDeleted, hL1]
      rcases hB : cleanBatch o u lbl (threads.map Thread.id) with ⟨rB, tr2⟩
      rcases rB with e | uu
      · rw [cleanLoop_batch_error o u maxPerCat lbl rest res tot comp reason
          threads tr1 e tr2 hL hB] at h
        exact absurd h (by simp)
      · by_cases hge : (threads.length : Int) ≥ maxPerCat
        · have hst : stageTrigger o u maxPerCat lbl =
              some "max per category reached; more emails may remain" := by
            simp [stageTrigger, hL1, hge]
          rw [cleanLoop_cap o u maxPerCat lbl rest res tot comp reason threads tr1 tr2 hL hB hge,
            Prod.mk.injEq] at h
          obtain ⟨h1, -⟩ := h
          have hrec := cleanLoop_ok_spec o u maxPerCat rest (mapInsert res lbl threads.length)
            (tot + threads.length) false "max per category reached; more emails may remain" s
            (cleanLoop o u maxPerCat rest (mapInsert res lbl threads.length)
              (tot + threads.length) false "max per category reached; more emails may remain").2
            (by rw [← h1])
          obtain ⟨ih1, ih2, ih3, ih4, ih5⟩ := hrec
          refine ⟨by simpa [hsd] using ih1, by rw [ih2]; simp [hsd]; omega,
            by simp [ih3, List.filterMap_cons, hst],
            by rw [ih4, List.filterMap_cons_some hst, getLastD_cons],
            ?_⟩
          intro l hl
          rcases List.mem_cons.mp hl with hl | hl
          · subst hl
            exact ⟨threads, hL1⟩
          · exact ih5 l hl
        · rcases hE : cleanEstimate o u lbl with ⟨rE, tr3⟩
          rcases rE with e | estimate
          · have hst : stageTrigger o u maxPerCat lbl = none := by
              have hE1 : (cleanEstimate o u lbl).1 = .error e := by rw [hE]
              simp [stageTrigger, hL1, hge, hE1]
            rw [cleanLoop_est_error o u maxPerCat lbl rest res tot comp reason threads tr1 tr2
              e tr3 hL hB hge hE, Prod.mk.injEq] at h
            obtain ⟨h1, -⟩ := h
            have hrec := cleanLoop_ok_spec o u maxPerCat rest (mapInsert res lbl threads.length)
              (tot + threads.length) comp reason s
              (cleanLoop o u maxPerCat rest (mapInsert res lbl threads.length)
                (tot + threads.length) comp reason).2 (by rw [← h1])
            obtain ⟨ih1, ih2, ih3, ih4, ih5⟩ := hrec
            refine ⟨by simpa [hsd] using ih1, by rw [ih2]; simp [hsd]; omega,
              by simp [ih3, List.filterMap_cons, hst],
              by rw [ih4, List.filterMap_cons_none hst], ?_⟩
            intro l hl
            rcases List.mem_cons.mp hl with hl | hl
            · subst hl
              exact ⟨threads, hL1⟩
            · exact ih5 l hl
          · have hE1 : (cleanEstimate o u lbl).1 = .ok estimate := by rw [hE]
            by_cases hpos : estimate > 0
            · have hst : stageTrigger o u maxPerCat lbl =
                  some "remaining emails detected in one or more categories" := by
                simp [stageTrigger, hL1, hge, hE1, hpos]
              rw [cleanLoop_est_pos o u maxPerCat lbl rest res tot comp reason threads tr1 tr2
                estimate tr3 hL hB hge hE hpos, Prod.mk.injEq] at h
              obtain ⟨h1, -⟩ := h
              have hrec := cleanLoop_ok_spec o u maxPerCat rest
                (mapInsert res lbl threads.length) (tot + threads.length) false
                "remaining emails detected in one or more categories" s
                (cleanLoop o u maxPerCat rest (mapInsert res lbl threads.length)
                  (tot + threads.length) false
                  "remaining emails detected in one or more categories").2 (by rw [← h1])
              obtain ⟨ih1, ih2, ih3, ih4, ih5⟩ := hrec
              refine ⟨by simpa [hsd] using ih1, by rw [ih2]; simp [hsd]; omega,
                by simp [ih3, List.filterMap_cons, hst],
                by rw [ih4, List.filterMap_cons_some hst, getLastD_cons], ?_⟩
              intro l hl
              rcases List.mem_cons.mp hl with hl | hl
              · subst hl
                exact ⟨threads, hL1⟩
              · exact ih5 l hl
            · have hst : stageTrigger o u maxPerCat lbl = none := by
                simp [stageTrigger, hL1, hge, hE1, hpos]
              rw [cleanLoop_est_nonpos o u maxPerCat lbl rest res tot comp reason threads tr1 tr2
                estimate tr3 hL hB hge hE hpos, Prod.mk.injEq] at h
              obtain ⟨h1, -⟩ := h
              have hrec := cleanLoop_ok_spec o u maxPerCat rest
                (mapInsert res lbl threads.length) (tot + threads.length) comp reason s
                (cleanLoop o u maxPerCat rest (mapInsert res lbl threads.length)
                  (tot + threads.length) comp reason).2 (by rw [← h1])
              obtain ⟨ih1, ih2, ih3, ih4, ih5⟩ := hrec
              refine ⟨by simpa [hsd] using ih1, by rw [ih2]; simp [hsd]; omega,
                by simp [ih3, List.filterMap_cons, hst],
                by rw [ih4, List.filterMap_cons_none hst], ?_⟩
              intro l hl
              rcases List.mem_cons.mp hl with hl | hl
              · subst hl
                exact ⟨threads, hL1⟩
              · exact ih5 l hl

lemma mapInsert_notMem (k : String) (v : Nat) :
    ∀ m : List (String × Nat), k ∉ m.map Prod.fst → mapInsert m k v = m ++ [(k, v)]
  | [], _ => rfl
  | kv :: rest, h => by
    simp only [List.map_cons, List.mem_cons, not_or] at h
    obtain ⟨h1, h2⟩ := h
    simp only [mapInsert]
    rw [if_neg fun hc => h1 hc.symm, mapInsert_notMem k v rest h2, List.cons_append]

lemma foldl_mapInsert (f : String → Nat) :
    ∀ (cats : List String) (m : List (String × Nat)),
      cats.Nodup → (∀ l ∈ cats, l ∉ m.map Prod.fst) →
      cats.foldl (fun acc l => mapInsert acc l (f l)) m = m ++ cats.map (fun l => (l, f l))
  | [], m, _, _ => by simp
  | lbl :: rest, m, hnd, hdisj => by
    simp only [List.foldl_cons]
    rw [mapInsert_notMem lbl (f lbl) m (hdisj lbl (List.mem_cons_self lbl rest))]
    rw [foldl_mapInsert f rest (m ++ [(lbl, f lbl)]) (List.Nodup.of_cons hnd) ?_]
    · simp
    · intro l hl
      simp only [List.map_append, List.mem_append, not_or]
      refine ⟨hdisj l (List.mem_cons_of_mem lbl hl), ?_⟩
      have hne : l ≠ lbl := by
        intro hc
        exact (List.nodup_cons.mp hnd).1 (hc ▸ hl)
      simp [hne]

lemma ite_min (a : Int) : (if a < 500 then a else 500) = min a 500 := by
  rw [Int.min_def]
  split <;> split <;> omega

lemma listLoop_pageSizesOk (o : Oracle) (u lbl : String) (wrapMsg : Nat → String → String)
    (maxResults : Int) :
    ∀ (fuel : Nat) (acc : List Thread) (tf : Int) (token : String) (pc : Nat),
      pageSizesOk o maxResults tf (listLoop o u lbl wrapMsg maxResults fuel acc tf token pc).2
  | 0, _, _, _, _ => trivial
  | Nat.succ fuel, acc, tf, token, pc => by
    simp only [listLoop]
    rcases hp : o.listPage u lbl (if maxResults - tf < 500 then maxResults - tf else 500) token
      with e | p
    · simp only [hp]
      exact ⟨ite_min (maxResults - tf), by simp [hp]⟩
    · simp only [hp]
      by_cases hstop : p.nextPageToken = "" ∨ tf + (p.threads.length : Int) ≥ maxResults ∨
          p.threads.length = 0
      · rw [if_pos hstop]
        exact ⟨ite_min (maxResults - tf), by simp [hp, pageSizesOk]⟩
      · rw [if_neg hstop]
        refine ⟨ite_min (maxResults - tf), ?_⟩
        simp only [hp]
        exact listLoop_pageSizesOk o u lbl wrapMsg maxResults fuel (acc ++ p.threads)
          (tf + (p.threads.length : Int)) p.nextPageToken (pc + 1)

lemma pageSizesOk_le500 (o : Oracle) (maxResults : Int) :
    ∀ (tf : Int) (tr : List Call), pageSizesOk o maxResults tf tr →
      ∀ c ∈ tr, ∀ u2 l2 sz tok, c = Call.listPage u2 l2 sz tok → sz ≤ 500
  | _, [], _, c, hc => absurd hc (List.not_mem_nil c)
  | tf, Call.listPage u3 l3 sz3 tok3 :: rest, hok, c, hc => by
    obtain ⟨hsz, htail⟩ := hok
    intro u2 l2 sz tok hceq
    rcases List.mem_cons.mp hc with hc | hc
    · rw [hc] at hceq
      cases hceq
      rw [hsz]
      exact min_le_right _ _
    · rcases hp : o.listPage u3 l3 sz3 tok3 with e | p
      · rw [hp] at htail
        rw [htail] at hc
        exact absurd hc (List.not_mem_nil c)
      · rw [hp] at htail
        exact pageSizesOk_le500 o maxResults (tf + (p.threads.length : Int)) rest htail c hc
          u2 l2 sz tok hceq

lemma listLoop_trace_ne_nil (o : Oracle) (u lbl : String) (wrapMsg : Nat → String → String)
    (maxResults : Int) (fuel : Nat) (acc : List Thread) (tf : Int) (token : String) (pc : Nat) :
    (listLoop o u lbl wrapMsg maxResults (Nat.succ fuel) acc tf token pc).2 ≠ [] := by
  simp only [listLoop]
  rcases hp : o.listPage u lbl (if maxResults - tf < 500 then maxResults - tf else 500) token
    with e | p
  · simp [hp]
  · simp only [hp]
    by_cases hstop : p.nextPageToken = "" ∨ tf + (p.threads.length : Int) ≥ maxResults ∨
        p.threads.length = 0
    · rw [if_pos hstop]
      simp
    · rw [if_neg hstop]
      simp

lemma listLoop_pagesTerm (o : Oracle) (u lbl : String) (wrapMsg : Nat → String → String)
    (maxResults : Int) :
    ∀ (fuel : Nat) (acc : List Thread) (tf : Int) (token : String) (pc : Nat)
      (threads : List Thread) (tr : List Call),
      tf < maxResults → maxResults ≤ tf + (fuel : Int) →
      listLoop o u lbl wrapMsg maxResults fuel acc tf token pc = (.ok threads, tr) →
      pagesTerm o maxResults tf tr
  | 0, _, tf, _, _, _, _, hlt, hfuel, _ => absurd hfuel (by omega)
  | Nat.succ fuel, acc, tf, token, pc, threads, tr, hlt, hfuel, h => by
    simp only [listLoop] at h
    rcases hp : o.listPage u lbl (if maxResults - tf < 500 then maxResults - tf else 500) token
      with e | p
    · simp only [hp] at h
      exact absurd h (by simp)
    · simp only [hp] at h
      by_cases hstop : p.nextPageToken = "" ∨ tf + (p.threads.length : Int) ≥ maxResults ∨
          p.threads.length = 0
      · rw [if_pos hstop, Prod.mk.injEq] at h
        obtain ⟨-, htr⟩ := h
        subst htr
        simp only [pagesTerm, hp]
        exact hstop
      · rw [if_neg hstop] at h
        rw [Prod.mk.injEq] at h
        obtain ⟨h1, htr⟩ := h
        subst htr
        have hcnt : p.threads.length ≠ 0 := fun hc => hstop (Or.inr (Or.inr hc))
        have hlt2 : tf + (p.threads.length : Int) < maxResults := by
          rcases not_or.mp hstop with ⟨-, h2⟩
          omega
        have hfuel2 : maxResults ≤ tf + (p.threads.length : Int) + (fuel : Int) := by
          have : (1 : Int) ≤ (p.threads.length : Int) := by
            omega
          push_cast at hfuel ⊢
          omega
        have hrec := listLoop_pagesTerm o u lbl wrapMsg maxResults fuel (acc ++ p.threads)
          (tf + (p.threads.length : Int)) p.nextPageToken (pc + 1) threads
          (listLoop o u lbl wrapMsg maxResults fuel (acc ++ p.threads)
            (tf + (p.threads.length : Int)) p.nextPageToken (pc + 1)).2
          hlt2 hfuel2 (by rw [← h1])
        have hfe : 1 ≤ fuel := by omega
        have hne := listLoop_trace_ne_nil o u lbl wrapMsg maxResults (fuel - 1) (acc ++ p.threads)
          (tf + (p.threads.length : Int)) p.nextPageToken (pc + 1)
        rw [Nat.succ_eq_add_one, Nat.sub_add_cancel hfe] at hne
        rcases hrest : (listLoop o u lbl wrapMsg maxResults fuel (acc ++ p.threads)
            (tf + (p.threads.length : Int)) p.nextPageToken (pc + 1)).2 with - | ⟨c2, rest2⟩
        · exact absurd hrest hne
        · rw [hrest] at hrec
          simp only [pagesTerm, hp, hrest]
          exact ⟨hstop, hrec⟩

lemma fullPages_tail (o : Oracle) (c : Call) (tr : List Call)
    (h : fullPages o (c :: tr)) : fullPages o tr :=
  fun c2 hc2 => h c2 (List.mem_cons_of_mem c hc2)

lemma listLoop_bound (o : Oracle) (u lbl : String) (wrapMsg : Nat → String → String)
    (maxResults : Int) :
    ∀ (fuel : Nat) (acc : List Thread) (tf : Int) (token : String) (pc : Nat)
      (threads : List Thread) (tr : List Call),
      tf < maxResults →
      listLoop o u lbl wrapMsg maxResults fuel acc tf token pc = (.ok threads, tr) →
      fullPages o tr →
      tr.length ≤ ((maxResults - tf).toNat + 499) / 500
  | 0, _, _, _, _, _, _, _, h, _ => by
    simp only [listLoop, Prod.mk.injEq] at h
    obtain ⟨-, htr⟩ := h
    simp [← htr]
  | Nat.succ fuel, acc, tf, token, pc, threads, tr, hlt, h, hfull => by
    simp only [listLoop] at h
    rcases hp : o.listPage u lbl (if maxResults - tf < 500 then maxResults - tf else 500) token
      with e | p
    · simp only [hp] at h
      exact absurd h (by simp)
    · simp only [hp] at h
      by_cases hstop : p.nextPageToken = "" ∨ tf + (p.threads.length : Int) ≥ maxResults ∨
          p.threads.length = 0
      · rw [if_pos hstop, Prod.mk.injEq] at h
        obtain ⟨-, htr⟩ := h
        subst htr
        have : (1 : Int) ≤ maxResults - tf := by omega
        simp only [List.length_cons, List.length_nil]
        omega
      · rw [if_neg hstop, Prod.mk.injEq] at h
        obtain ⟨h1, htr⟩ := h
        subst htr
        have hhead := hfull (Call.listPage u lbl
            (if maxResults - tf < 500 then maxResults - tf else 500) token)
          (List.mem_cons_self _ _) u lbl _ token rfl
        obtain ⟨p2, hp2, hlen2⟩ := hhead
        rw [hp] at hp2
        cases hp2
        have hlt2 : tf + (p.threads.length : Int) < maxResults := by
          rcases not_or.mp hstop with ⟨-, h2⟩
          omega
        have hsz : (p.threads.length : Int) = 500 := by
          by_cases hrem : maxResults - tf < 500
          · rw [if_pos hrem] at hlen2
            omega
          · rw [if_neg hrem] at hlen2
            exact hlen2
        have hrec := listLoop_bound o u lbl wrapMsg maxResults fuel (acc ++ p.threads)
          (tf + (p.threads.length : Int)) p.nextPageToken (pc + 1) threads
          (listLoop o u lbl wrapMsg maxResults fuel (acc ++ p.threads)
            (tf + (p.threads.length : Int)) p.nextPageToken (pc + 1)).2
          hlt2 (by rw [← h1]) (fullPages_tail o _ _ hfull)
        simp only [List.length_cons]
        omega

lemma trashLoop_ok_trace (o : Oracle) (u : String) :
    ∀ (ids : List String) (tr : List Call),
      trashLoop o u ids = (.ok (), tr) →
      tr = ids.map (fun tid => Call.modifyThread u tid ["TRASH"] ["INBOX"])
  | [], tr, h => by
    simp only [trashLoop, Prod.mk.injEq] at h
    simp [← h.2]
  | tid :: rest, tr, h => by
    simp only [trashLoop] at h
    rcases hm : o.modifyThread u tid ["TRASH"] ["INBOX"] with e | uu
    · simp only [hm] at h
      exact absurd h (by simp)
    · simp only [hm, Prod.mk.injEq] at h
      obtain ⟨h1, h2⟩ := h
      rw [List.map_cons, ← h2]
      have hrec := trashLoop_ok_trace o u rest (trashLoop o u rest).2 (by rw [← h1])
      rw [← hrec]

lemma deleteLoop_ok_trace (o : Oracle) (u : String) :
    ∀ (ids : List String) (tr : List Call),
      deleteLoop o u ids = (.ok (), tr) →
      tr = ids.map (fun tid => Call.deleteThread u tid)
  | [], tr, h => by
    simp only [deleteLoop, Prod.mk.injEq] at h
    simp [← h.2]
  | tid :: rest, tr, h => by
    simp only [deleteLoop] at h
    rcases hm : o.deleteThread u tid with e | uu
    · simp only [hm] at h
      exact absurd h (by simp)
    · simp only [hm, Prod.mk.injEq] at h
      obtain ⟨h1, h2⟩ := h
      rw [List.map_cons, ← h2]
      have hrec := deleteLoop_ok_trace o u rest (deleteLoop o u rest).2 (by rw [← h1])
      rw [← hrec]

lemma BatchTrashThreads_ok_trace (o : Oracle) (u : String) (ids : List String) (tr : List Call)
    (h : BatchTrashThreads o u ids = (.ok (), tr)) :
    tr = ids.map (fun tid => Call.modifyThread u tid ["TRASH"] ["INBOX"]) := by
  rcases ids with - | ⟨tid, rest⟩
  · simp only [BatchTrashThreads, List.isEmpty_nil, if_pos, Prod.mk.injEq] at h
    simp [← h.2]
  · simp only [BatchTrashThreads, List.isEmpty_cons] at h
    exact trashLoop_ok_trace o u (tid :: rest) tr (by simpa using h)

lemma BatchDeleteThreadsPermanently_ok_trace (o : Oracle) (u : String) (ids : List String)
    (tr : List Call) (h : BatchDeleteThreadsPermanently o u ids = (.ok (), tr)) :
    tr = ids.map (fun tid => Call.deleteThread u tid) := by
  rcases ids with - | ⟨tid, rest⟩
  · simp only [BatchDeleteThreadsPermanently, List.isEmpty_nil, if_pos, Prod.mk.injEq] at h
    simp [← h.2]
  · simp only [BatchDeleteThreadsPermanently, List.isEmpty_cons] at h
    exact deleteLoop_ok_trace o u (tid :: rest) tr (by simpa using h)

lemma strContainsChars_iff (pat : List Char) :
    ∀ s : List Char, strContainsChars pat s = true ↔ ∃ l r, s = l ++ pat ++ r
  | [] => by
    simp only [strContainsChars, List.isEmpty_iff]
    constructor
    · intro h
      exact ⟨[], [], by simp [h]⟩
    · rintro ⟨l, r, hlr⟩
      rcases List.append_eq_nil.mp (List.append_eq_nil.mp hlr.symm).1 with ⟨-, h2⟩
      exact h2
  | c :: rest => by
    simp only [strContainsChars, Bool.or_eq_true]
    constructor
    · rintro (hpre | hrec)
      · obtain ⟨t, ht⟩ := List.isPrefixOf_iff_prefix.mp hpre
        exact ⟨[], t, by simp [← ht]⟩
      · obtain ⟨l, r, hlr⟩ := (strContainsChars_iff pat rest).mp hrec
        exact ⟨c :: l, r, by simp [hlr]⟩
    · rintro ⟨l, r, hlr⟩
      rcases l with - | ⟨c2, l2⟩
      · exact Or.inl ( List.isPrefixOf_iff_prefix.mpr ⟨r, by simpa using hlr.symm⟩)
      · simp only [List.cons_append, List.cons.injEq] at hlr
        exact Or.inr ((strContainsChars_iff pat rest).mpr ⟨l2, r, hlr.2⟩)

lemma strContains_iff (s pat : String) : strContains s pat = true ↔ occursIn pat s :=
  strContainsChars_iff pat.data s.data

lemma stageTrigger_none_iff (o : Oracle) (u : String) (maxPerCat : Int) (lbl : String)
    (threads : List Thread) (hL1 : (cleanListing o u lbl maxPerCat).1 = .ok threads) :
    stageTrigger o u maxPerCat lbl = none ↔
      ((threads.length : Int) < maxPerCat ∧
       ∀ est, (cleanEstimate o u lbl).1 = .ok est → est ≤ 0) := by
  simp only [stageTrigger, hL1]
  rcases hE : (cleanEstimate o u lbl).1 with e | est
  · by_cases hge : (threads.length : Int) ≥ maxPerCat
    · rw [if_pos hge]
      simp only [reduceCtorEq, false_iff, not_and]
      intro hlt
      omega
    · rw [if_neg hge]
      constructor
      · intro _
        refine ⟨by omega, ?_⟩
        intro est2 hc
        exact absurd hc (by simp)
      · intro _
        rfl
  · by_cases hge : (threads.length : Int) ≥ maxPerCat
    · rw [if_pos hge]
      simp only [reduceCtorEq, false_iff, not_and]
      intro hlt
      omega
    · rw [if_neg hge]
      by_cases hpos : est > 0
      · constructor
        · intro hc
          exact absurd hc (by simp [hpos])
        · rintro ⟨_, hall⟩
          exact absurd (hall est rfl) (by omega)
      · constructor
        · intro _
          refine ⟨by omega, ?_⟩
          intro est2 hc
          rw [Except.ok.injEq] at hc
          omega
        · intro _
          show (if est > 0 then some "remaining emails detected in one or more categories"
            else none) = none
          rw [if_neg hpos]

/-- Claim C1, amended: for every request that CleanCategories completes
without error and whose categories contain no duplicate labels, the
returned summary satisfies TotalDeleted = sum of the values of
PerCategoryDeleted, and PerCategoryDeleted contains exactly one entry per
requested category, in processing order.  (With duplicate labels the map
keeps a single entry per distinct label holding only the count of the last
iteration while TotalDeleted counts every iteration, so the sum equality can
fail; see the counterexample.) -/
theorem claim_C1 (o : Oracle) (u : String) (cats : List String) (maxPerCat : Int)
    (s : CleanSummary) (tr : List Call) (hnd : cats.Nodup)
    (h : CleanCategories o u cats maxPerCat = (.ok s, tr)) :
    s.TotalDeleted = sumValues s.PerCategoryDeleted ∧
    s.PerCategoryDeleted.map Prod.fst = cats ∧
    s.PerCategoryDeleted = cats.map (fun l => (l, stageDeleted o u maxPerCat l)) := by
  obtain ⟨h1, h2, -, -, -⟩ :=
    cleanLoop_ok_spec o u maxPerCat cats [] 0 true "all categories processed" s tr h
  rw [foldl_mapInsert (stageDeleted o u maxPerCat) cats [] hnd (by simp),
    List.nil_append] at h1
  refine ⟨?_, ?_, h1⟩
  · rw [h2, h1]
    simp only [sumValues, List.map_map]
    have hc : (Prod.snd ∘ fun l => (l, stageDeleted o u maxPerCat l)) =
        stageDeleted o u maxPerCat := rfl
    rw [hc, Nat.zero_add]
  · rw [h1]
    simp only [List.map_map]
    have hc : (Prod.fst ∘ fun l => (l, stageDeleted o u maxPerCat l)) = id := rfl
    rw [hc, List.map_id]

/-- Claim C1, counterexample: with the duplicated request
[CATEGORY_SOCIAL, CATEGORY_SOCIAL] against a provider that always lists
one thread, CleanCategories succeeds with TotalDeleted = 2 while the
per-category map holds a single entry of value 1, so the claimed
invariant TotalDeleted = sum of the map values fails. -/
theorem claim_C1_counterexample :
    CleanCategories oX1 "me" ["CATEGORY_SOCIAL", "CATEGORY_SOCIAL"] 10 = (.ok sX1, trX1) ∧
    sX1.TotalDeleted ≠ sumValues sX1.PerCategoryDeleted :=
  ⟨rfl, by decide⟩

/-- Claim C1, witness: the amended theorem applied to a concrete
duplicate-free request. -/
theorem claim_C1_witness :
    sW1.TotalDeleted = sumValues sW1.PerCategoryDeleted ∧
    sW1.PerCategoryDeleted.map Prod.fst = ["CATEGORY_SOCIAL", "TRASH"] ∧
    sW1.PerCategoryDeleted =
      ["CATEGORY_SOCIAL", "TRASH"].map (fun l => (l, stageDeleted oW1 "me" 5 l)) :=
  claim_C1 oW1 "me" ["CATEGORY_SOCIAL", "TRASH"] 5 sW1 trW1 (by decide) rfl

/-- Claim C2, amended: for every request that CleanCategories completes
without error, Completed = true holds if and only if the
listing of every category stayed strictly below the cap and no post-delete
estimate check succeeded with a positive count (an estimate check that
fails is ignored rather than treated as finding remaining items); and
when Completed = true the reason is the default one. -/
theorem claim_C2 (o : Oracle) (u : String) (cats : List String) (maxPerCat : Int)
    (s : CleanSummary) (tr : List Call)
    (h : CleanCategories o u cats maxPerCat = (.ok s, tr)) :
    (s.Completed = true ↔
      ∀ lbl ∈ cats, ∃ threads, (cleanListing o u lbl maxPerCat).1 = .ok threads ∧
        (threads.length : Int) < maxPerCat ∧
        ∀ est, (cleanEstimate o u lbl).1 = .ok est → est ≤ 0) ∧
    (s.Completed = true → s.Reason = "all categories processed") := by
  obtain ⟨-, -, h3, h4, h5⟩ :=
    cleanLoop_ok_spec o u maxPerCat cats [] 0 true "all categories processed" s tr h
  constructor
  · rw [h3, Bool.true_and, List.isEmpty_iff, List.filterMap_eq_nil_iff]
    constructor
    · intro hall lbl hl
      obtain ⟨threads, hL1⟩ := h5 lbl hl
      obtain ⟨ha, hb⟩ :=
        (stageTrigger_none_iff o u maxPerCat lbl threads hL1).mp (hall lbl hl)
      exact ⟨threads, hL1, ha, hb⟩
    · intro hall lbl hl
      obtain ⟨threads, hL1, ha, hb⟩ := hall lbl hl
      exact (stageTrigger_none_iff o u maxPerCat lbl threads hL1).mpr ⟨ha, hb⟩
  · intro hc
    rw [h3, Bool.true_and, List.isEmpty_iff] at hc
    rw [h4, hc]
    rfl

/-- Claim C2, counterexample: against a provider whose estimate calls
fail, a request completes without error and reports Completed = true even
though no estimate check found zero remaining items (the only estimate
check errored), refuting the claimed if-and-only-if. -/
theorem claim_C2_counterexample :
    CleanCategories oX2 "me" ["CATEGORY_SOCIAL"] 5 = (.ok sX2, trX2) ∧
    sX2.Completed = true ∧
    (cleanEstimate oX2 "me" "CATEGORY_SOCIAL").1 = .error "boom" :=
  ⟨rfl, rfl, rfl⟩

/-- Claim C2, witness: the amended theorem applied to a concrete
successful run. -/
theorem claim_C2_witness :
    (sW2.Completed = true ↔
      ∀ lbl ∈ ["TRASH"], ∃ threads, (cleanListing oW2 "me" lbl 5).1 = .ok threads ∧
        (threads.length : Int) < 5 ∧
        ∀ est, (cleanEstimate oW2 "me" lbl).1 = .ok est → est ≤ 0) ∧
    (sW2.Completed = true → sW2.Reason = "all categories processed") :=
  claim_C2 oW2 "me" ["TRASH"] 5 sW2 trW2 rfl

/-- Claim C3, amended: a listing-page failure or a per-thread
trash/delete failure immediately aborts the whole multi-category
operation - CleanCategories returns exactly the propagated error, the
trace stops at the failing call and the remaining categories are never
touched (the result does not depend on them), with no retry; a
post-delete Estimate failure, however, does NOT abort: it is silently
ignored and the loop continues with the completion state unchanged. -/
theorem claim_C3 (o : Oracle) (u : String) (maxPerCat : Int) (lbl : String)
    (rest : List String) (res : List (String × Nat)) (tot : Nat) (comp : Bool) (reason : String) :
    (∀ e tr1, cleanListing o u lbl maxPerCat = (.error e, tr1) →
      cleanLoop o u maxPerCat (lbl :: rest) res tot comp reason = (.error e, tr1)) ∧
    (∀ threads tr1 e tr2, cleanListing o u lbl maxPerCat = (.ok threads, tr1) →
      cleanBatch o u lbl (threads.map Thread.id) = (.error e, tr2) →
      cleanLoop o u maxPerCat (lbl :: rest) res tot comp reason = (.error e, tr1 ++ tr2)) ∧
    (∀ threads tr1 tr2 e tr3, cleanListing o u lbl maxPerCat = (.ok threads, tr1) →
      cleanBatch o u lbl (threads.map Thread.id) = (.ok (), tr2) →
      (threads.length : Int) < maxPerCat →
      cleanEstimate o u lbl = (.error e, tr3) →
      cleanLoop o u maxPerCat (lbl :: rest) res tot comp reason =
        ((cleanLoop o u maxPerCat rest (mapInsert res lbl threads.length)
            (tot + threads.length) comp reason).1,
         tr1 ++ tr2 ++ tr3 ++ (cleanLoop o u maxPerCat rest (mapInsert res lbl threads.length)
            (tot + threads.length) comp reason).2)) := by
  refine ⟨?_, ?_, ?_⟩
  · intro e tr1 hL
    exact cleanLoop_listing_error o u maxPerCat lbl rest res tot comp reason e tr1 hL
  · intro threads tr1 e tr2 hL hB
    exact cleanLoop_batch_error o u maxPerCat lbl rest res tot comp reason threads tr1 e tr2 hL hB
  · intro threads tr1 tr2 e tr3 hL hB hlt hE
    exact cleanLoop_est_error o u maxPerCat lbl rest res tot comp reason threads tr1 tr2 e tr3
      hL hB (not_le.mpr hlt) hE

/-- Claim C3, counterexample: against a provider whose estimate calls
fail, CleanCategories still returns a summary (Except.ok), so an
Estimate failure does not abort the operation with only the error as the
claim states. -/
theorem claim_C3_counterexample :
    CleanCategories oX3 "me" ["CATEGORY_SOCIAL"] 5 = (.ok sX3, trX3) ∧
    (cleanEstimate oX3 "me" "CATEGORY_SOCIAL").1 = .error "quota exceeded" :=
  ⟨rfl, rfl⟩

/-- Claim C3, witness: the amended theorem applied to a concrete failing
listing - the run on two categories aborts with only the wrapped error
and the single failing page call, never touching the second category. -/
theorem claim_C3_witness :
    cleanLoop oW3 "me" 5 ["CATEGORY_SOCIAL", "TRASH"] [] 0 true "all categories processed" =
      (.error "failed to list category threads for CATEGORY_SOCIAL (page 1): boom",
       [Call.listPage "me" "CATEGORY_SOCIAL" 5 ""]) :=
  (claim_C3 oW3 "me" 5 "CATEGORY_SOCIAL" ["TRASH"] [] 0 true "all categories processed").1
    "failed to list category threads for CATEGORY_SOCIAL (page 1): boom"
    [Call.listPage "me" "CATEGORY_SOCIAL" 5 ""] rfl

/-- Claim C5, amended: the cap-hit of a later category DOES overwrite the
remaining-emails reason of an earlier category: on success the reported
reason is the message of the LAST triggered condition across the
processed categories (the default when none triggered), because both
conditions write the same variable and the last write wins. -/
theorem claim_C5 (o : Oracle) (u : String) (cats : List String) (maxPerCat : Int)
    (s : CleanSummary) (tr : List Call)
    (h : CleanCategories o u cats maxPerCat = (.ok s, tr)) :
    s.Reason =
      ((cats.filterMap (stageTrigger o u maxPerCat)).getLast?).getD
        "all categories processed" :=
  (cleanLoop_ok_spec o u maxPerCat cats [] 0 true "all categories processed" s tr h).2.2.2.1

/-- Claim C5, counterexample: the SOCIAL category triggers the
remaining-emails reason and the later PROMOTIONS category hits its cap;
the returned reason is the cap message, not the remaining-emails one, so
the later cap-hit did overwrite the earlier reason. -/
theorem claim_C5_counterexample :
    CleanCategories oX5 "me" ["CATEGORY_SOCIAL", "CATEGORY_PROMOTIONS"] 2 = (.ok sX5, trX5) ∧
    stageTrigger oX5 "me" 2 "CATEGORY_SOCIAL" =
      some "remaining emails detected in one or more categories" ∧
    stageTrigger oX5 "me" 2 "CATEGORY_PROMOTIONS" =
      some "max per category reached; more emails may remain" ∧
    sX5.Reason ≠ "remaining emails detected in one or more categories" :=
  ⟨rfl, rfl, rfl, by decide⟩

/-- Claim C5, witness: the amended theorem applied to the concrete run
of the counterexample oracle, showing the reported reason is the last
message of the last triggered condition. -/
theorem claim_C5_witness :
    sX5.Reason =
      (((["CATEGORY_SOCIAL", "CATEGORY_PROMOTIONS"].filterMap
          (stageTrigger oX5 "me" 2)).getLast?).getD "all categories processed") :=
  claim_C5 oX5 "me" ["CATEGORY_SOCIAL", "CATEGORY_PROMOTIONS"] 2 sX5 trX5 rfl

/-- Claim C4: the delete/trash step of a processed category issues, when
the label is TRASH, exactly one remote delete call per listed thread, and
for every other label exactly one remote modify call per listed thread
adding the TRASH label and removing the INBOX label.  cleanBatch is the
routing step CleanCategories applies to the ids of the listed threads. -/
theorem claim_C4 (o : Oracle) (u lbl : String) (ids : List String) (tr : List Call)
    (h : cleanBatch o u lbl ids = (.ok (), tr)) :
    (lbl = "TRASH" → tr = ids.map (fun tid => Call.deleteThread u tid)) ∧
    (lbl ≠ "TRASH" → tr = ids.map (fun tid => Call.modifyThread u tid ["TRASH"] ["INBOX"])) := by
  constructor
  · intro he
    rw [cleanBatch, if_pos he] at h
    exact BatchDeleteThreadsPermanently_ok_trace o u ids tr h
  · intro he
    rw [cleanBatch, if_neg he] at h
    exact BatchTrashThreads_ok_trace o u ids tr h

/-- Claim C4, witness: the theorem applied to the TRASH label and two
concrete thread ids - the trace is one delete call per thread. -/
theorem claim_C4_witness :
    (cleanBatch oW4 "me" "TRASH" ["a", "b"]).2 =
      ["a", "b"].map (fun tid => Call.deleteThread "me" tid) :=
  (claim_C4 oW4 "me" "TRASH" ["a", "b"] (cleanBatch oW4 "me" "TRASH" ["a", "b"]).2 rfl).1 rfl

/-- Claim C6: in every listing invocation (category and trash paths
alike) with maximum at least 1, each page request asks the provider for
exactly min(maxResults - totalFetched, 500) items, so no page ever
requests more than 500 items. -/
theorem claim_C6 (o : Oracle) (u lbl : String) (maxResults : Int) (hmax : 1 ≤ maxResults) :
    (pageSizesOk o maxResults 0 (ListCategoryThreads o u lbl maxResults).2 ∧
     ∀ c ∈ (ListCategoryThreads o u lbl maxResults).2,
       ∀ u2 l2 sz tok, c = Call.listPage u2 l2 sz tok → sz ≤ 500) ∧
    (pageSizesOk o maxResults 0 (ListTrashThreads o u maxResults).2 ∧
     ∀ c ∈ (ListTrashThreads o u maxResults).2,
       ∀ u2 l2 sz tok, c = Call.listPage u2 l2 sz tok → sz ≤ 500) := by
  have h1 := listLoop_pageSizesOk o u lbl (wrapCatMsg lbl) maxResults
    (maxResults.toNat + 1) [] 0 "" 0
  have h2 := listLoop_pageSizesOk o u "TRASH" wrapTrashMsg maxResults
    (maxResults.toNat + 1) [] 0 "" 0
  exact ⟨⟨h1, pageSizesOk_le500 o maxResults 0 _ h1⟩,
    ⟨h2, pageSizesOk_le500 o maxResults 0 _ h2⟩⟩

/-- Claim C6, witness: the theorem applied to a concrete oracle and
maximum 600 - the two issued page requests ask for 500 and then 100. -/
theorem claim_C6_witness :
    pageSizesOk oW6 600 0 (ListCategoryThreads oW6 "me" "CATEGORY_SOCIAL" 600).2 ∧
    pageSizesOk oW6 600 0 (ListTrashThreads oW6 "me" 600).2 :=
  ⟨(claim_C6 oW6 "me" "CATEGORY_SOCIAL" 600 (by decide)).1.1,
   (claim_C6 oW6 "me" "CATEGORY_SOCIAL" 600 (by decide)).2.1⟩

/-- Claim C7: for maximum at least 1, a listing that completes without
error stops exactly at the first page satisfying the stop condition
(continuation token absent, or totalFetched at or past the maximum, or a
page with zero items) - every earlier page fails it - and when every page
returns as many items as requested the loop runs at most
ceil(maxResults/500) pages. -/
theorem claim_C7 (o : Oracle) (u lbl : String) (maxResults : Int) (hmax : 1 ≤ maxResults) :
    (∀ threads tr, ListCategoryThreads o u lbl maxResults = (.ok threads, tr) →
      pagesTerm o maxResults 0 tr ∧
      (fullPages o tr → tr.length ≤ (maxResults.toNat + 499) / 500)) ∧
    (∀ threads tr, ListTrashThreads o u maxResults = (.ok threads, tr) →
      pagesTerm o maxResults 0 tr ∧
      (fullPages o tr → tr.length ≤ (maxResults.toNat + 499) / 500)) := by
  constructor
  · intro threads tr h
    constructor
    · exact listLoop_pagesTerm o u lbl (wrapCatMsg lbl) maxResults (maxResults.toNat + 1)
        [] 0 "" 0 threads tr (by omega) (by omega) h
    · intro hfp
      have hb := listLoop_bound o u lbl (wrapCatMsg lbl) maxResults (maxResults.toNat + 1)
        [] 0 "" 0 threads tr (by omega) h hfp
      simpa using hb
  · intro threads tr h
    constructor
    · exact listLoop_pagesTerm o u "TRASH" wrapTrashMsg maxResults (maxResults.toNat + 1)
        [] 0 "" 0 threads tr (by omega) (by omega) h
    · intro hfp
      have hb := listLoop_bound o u "TRASH" wrapTrashMsg maxResults (maxResults.toNat + 1)
        [] 0 "" 0 threads tr (by omega) h hfp
      simpa using hb

/-- Claim C7, witness: the theorem applied to a concrete full-page
oracle with maximum 2 - the single page of 2 items satisfies the stop
condition and the page count is within ceil(2/500) = 1. -/
theorem claim_C7_witness :
    pagesTerm oW6 2 0 [Call.listPage "me" "CATEGORY_SOCIAL" 2 ""] ∧
    (fullPages oW6 [Call.listPage "me" "CATEGORY_SOCIAL" 2 ""] →
      ([Call.listPage "me" "CATEGORY_SOCIAL" 2 ""] : List Call).length ≤
        ((2 : Int).toNat + 499) / 500) :=
  (claim_C7 oW6 "me" "CATEGORY_SOCIAL" 2 (by decide)).1
    (List.replicate 2 ⟨"t"⟩) [Call.listPage "me" "CATEGORY_SOCIAL" 2 ""] rfl

/-- Claim C8: for every request with MaxPerCategory = 0, the handler
substitutes the cap 1000000 (never literal zero) before invoking
CleanCategories, so the request behaves exactly like the same request
with cap 1000000. -/
theorem claim_C8 (o : Oracle) (req : CleanRequest) (h0 : req.MaxPerCategory = 0) :
    (effectiveRequest req).MaxPerCategory = 1000000 ∧
    (effectiveRequest req).MaxPerCategory ≠ 0 ∧
    CleanHandlerClean o req = CleanHandlerClean o { req with MaxPerCategory := 1000000 } := by
  refine ⟨by simp [effectiveRequest, h0], by simp [effectiveRequest, h0], ?_⟩
  have heff : effectiveRequest req = { req with MaxPerCategory := 1000000 } := by
    simp [effectiveRequest, h0]
  have heff2 : effectiveRequest { req with MaxPerCategory := 1000000 } =
      { req with MaxPerCategory := 1000000 } := by
    simp [effectiveRequest]
  have hval : validRequest req = validRequest { req with MaxPerCategory := 1000000 } := by
    simp [validRequest, h0]
  rw [CleanHandlerClean, CleanHandlerClean, heff, heff2, hval]

/-- Claim C8, witness: the theorem applied to a concrete zero-cap
request. -/
theorem claim_C8_witness :
    (effectiveRequest ⟨0, ["TRASH"]⟩).MaxPerCategory = 1000000 ∧
    (effectiveRequest ⟨0, ["TRASH"]⟩).MaxPerCategory ≠ 0 ∧
    CleanHandlerClean oW4 ⟨0, ["TRASH"]⟩ = CleanHandlerClean oW4 ⟨1000000, ["TRASH"]⟩ :=
  claim_C8 oW4 ⟨0, ["TRASH"]⟩ rfl

/-- Claim C9: an error is classified as an authentication/authorization
failure exactly when its text contains one of the four fixed substrings
(nil errors never are), and the handler surfaces an auth-classified
CleanCategories failure as the distinct unauthorized outcome and every
other failure as the generic internal error. -/
theorem claim_C9 (e : String) (o : Oracle) (req : CleanRequest) :
    (IsAuthError (some e) = true ↔
      (occursIn "ACCESS_TOKEN_SCOPE_INSUFFICIENT" e ∨ occursIn "insufficientPermissions" e ∨
       occursIn "Error 401" e ∨ occursIn "Error 403" e)) ∧
    IsAuthError none = false ∧
    (validRequest req = true →
      (CleanCategories o "me" (effectiveRequest req).Categories
        (effectiveRequest req).MaxPerCategory).1 = .error e →
      CleanHandlerClean o req =
        (if IsAuthError (some e) then HandlerOutcome.unauthorized e
         else HandlerOutcome.internalError e)) := by
  refine ⟨?_, rfl, ?_⟩
  · simp only [IsAuthError, Bool.or_eq_true, strContains_iff]
    tauto
  · intro hv herr
    rw [CleanHandlerClean, hv]
    simp only [Bool.not_true, Bool.false_eq_true, if_false, herr]

/-- Claim C9, witness: the theorem applied to a concrete auth failure -
the propagated wrapped error contains the substring Error 401, so the
handler returns the unauthorized outcome. -/
theorem claim_C9_witness :
    CleanHandlerClean oW9 reqW9 =
      (if IsAuthError (some eW9) then HandlerOutcome.unauthorized eW9
       else HandlerOutcome.internalError eW9) :=
  (claim_C9 eW9 oW9 reqW9).2.2 rfl rfl

/-- Claim C10: calling BatchTrashThreads or
BatchDeleteThreadsPermanently with an empty thread-id list returns
success while issuing no remote call at all, and consequently a category
whose listing returns zero threads is recorded with count 0 in the
summary and the loop continues past it - it can never fail at the
trash/delete step. -/
theorem claim_C10 (o : Oracle) (u : String) :
    BatchTrashThreads o u [] = (.ok (), []) ∧
    BatchDeleteThreadsPermanently o u [] = (.ok (), []) ∧
    ∀ (maxPerCat : Int) (lbl : String) (rest : List String) (res : List (String × Nat))
      (tot : Nat) (comp : Bool) (reason : String) (tr1 : List Call),
      1 ≤ maxPerCat →
      cleanListing o u lbl maxPerCat = (.ok [], tr1) →
      ∃ comp2 reason2,
        (cleanLoop o u maxPerCat (lbl :: rest) res tot comp reason).1 =
          (cleanLoop o u maxPerCat rest (mapInsert res lbl 0) tot comp2 reason2).1 := by
  refine ⟨rfl, rfl, ?_⟩
  intro maxPerCat lbl rest res tot comp reason tr1 hmax hL
  have hB : cleanBatch o u lbl (([] : List Thread).map Thread.id) = (.ok (), []) := by
    by_cases he : lbl = "TRASH" <;>
      simp [cleanBatch, he, BatchTrashThreads, BatchDeleteThreadsPermanently]
  have hlt : ¬ (((([] : List Thread).map Thread.id).length : Int) ≥ maxPerCat) := by
    simp only [List.map_nil, List.length_nil, Nat.cast_zero]
    omega
  rcases hE : cleanEstimate o u lbl with ⟨rE, tr3⟩
  rcases rE with e2 | est
  · refine ⟨comp, reason, ?_⟩
    rw [cleanLoop_est_error o u maxPerCat lbl rest res tot comp reason [] tr1 [] e2 tr3
      hL hB hlt hE]
    rfl
  · by_cases hpos : est > 0
    · refine ⟨false, "remaining emails detected in one or more categories", ?_⟩
      rw [cleanLoop_est_pos o u maxPerCat lbl rest res tot comp reason [] tr1 [] est tr3
        hL hB hlt hE hpos]
      rfl
    · refine ⟨comp, reason, ?_⟩
      rw [cleanLoop_est_nonpos o u maxPerCat lbl rest res tot comp reason [] tr1 [] est tr3
        hL hB hlt hE hpos]
      rfl

/-- Claim C10, witness: the theorem applied to a concrete oracle whose
listing is empty - the stage records zero and continues. -/
theorem claim_C10_witness :
    BatchTrashThreads oW4 "me" [] = (.ok (), []) ∧
    BatchDeleteThreadsPermanently oW4 "me" [] = (.ok (), []) ∧
    ∃ comp2 reason2,
      (cleanLoop oW4 "me" 5 ["CATEGORY_SOCIAL"] [] 0 true "all categories processed").1 =
        (cleanLoop oW4 "me" 5 [] (mapInsert [] "CATEGORY_SOCIAL" 0) 0 comp2 reason2).1 :=
  ⟨(claim_C10 oW4 "me").1, (claim_C10 oW4 "me").2.1,
   (claim_C10 oW4 "me").2.2 5 "CATEGORY_SOCIAL" [] [] 0 true "all categories processed"
     [Call.listPage "me" "CATEGORY_SOCIAL" 5 ""] (by decide) rfl⟩

end GmailCleaner
